import Mathlib

/-!
Verification of the redis-backed cache layer (`0x02-redis_basic`).

The development shallowly embeds the two source modules:

* `exercise.py`: a `Cache` class over a redis connection, whose `store`
  method is wrapped by the `call_history` decorator (inputs/outputs are
  appended to two redis lists), and a `get` method with an optional
  converter.
* `web.py`: a `cache_expiration` decorator around a page fetcher, using
  an access counter `count:<url>` (INCR) and an expiring page entry
  (SETEX) in a single redis keyspace.

Redis is modelled as explicit state: for `exercise.py` a pair of
association lists (string keys and list keys live in separate maps here;
the code never mixes types on one key), and for `web.py` a single
keyspace whose entries carry an optional absolute expiration time, with
the current time passed explicitly to each operation.
-/

/-- The value types `Cache.store` accepts: `Union[str, bytes, int, float]`.
Byte strings are modelled as `String`.  A floating-point payload is
represented by the exact decimal text the redis client sends for it (the
rendering of the float); float arithmetic itself plays no role in the
code. -/
inductive PyVal where
  | str (s : String)
  | bytes (b : String)
  | int (n : Int)
  | float (r : String)
deriving DecidableEq, Repr

/-- The byte serialization the redis client applies to a value before
`SET`: strings are UTF-8 encoded (identity in this model), bytes pass
through, numbers are rendered in decimal. -/
def PyVal.toBytes : PyVal → String
  | .str s => s
  | .bytes b => b
  | .int n => toString n
  | .float r => r

/-- Python `repr` of a value, as used inside `str(args[1:])`: strings are
quote-wrapped, bytes get a `b` prefix, numbers render in decimal.
(Escaping of special characters inside the payload is not modelled; the
claims never depend on it.) -/
def PyVal.pyRepr : PyVal → String
  | .str s => "\x27" ++ s ++ "\x27"
  | .bytes b => "b\x27" ++ b ++ "\x27"
  | .int n => toString n
  | .float r => r

/-- `str(args[1:])` for a single positional argument (the only arity the
code uses): the textual form of the 1-tuple, enclosing punctuation
included. -/
def pyStrArgs (arg : PyVal) : String :=
  "(" ++ arg.pyRepr ++ ",)"

/-- The redis state seen by `exercise.py`: plain string keys (`SET`/`GET`)
and list keys (`RPUSH`/`LRANGE`).  Redis keeps both in one keyspace but
errors on type-mismatched access; the code keeps the two key families
disjoint, so two maps model it. -/
structure RedisState where
  strings : List (String × String)
  lists : List (String × List String)
deriving DecidableEq, Repr

/-- The state right after `Cache.__init__` (which issues `flushdb`). -/
def emptyRedis : RedisState := ⟨[], []⟩

/-- `SET key value` (replacement modelled by shadowing: lookups take the
most recent entry). -/
def RedisState.setStr (st : RedisState) (key v : String) : RedisState :=
  ⟨(key, v) :: st.strings, st.lists⟩

/-- `GET key` on a string key: the most recently set value, if any. -/
def RedisState.getStr (st : RedisState) (key : String) : Option String :=
  match st.strings.find? (fun e => e.1 = key) with
  | some e => some e.2
  | none => none

/-- The current contents of a list key (absent key reads as `[]`, as
`LRANGE` does). -/
def RedisState.lrange (st : RedisState) (key : String) : List String :=
  match st.lists.find? (fun e => e.1 = key) with
  | some e => e.2
  | none => []

/-- `RPUSH key v`: append `v` at the right end of the list at `key`. -/
def RedisState.rpush (st : RedisState) (key v : String) : RedisState :=
  ⟨st.strings, (key, st.lrange key ++ [v]) :: st.lists⟩

theorem getStr_setStr_self (st : RedisState) (k v : String) :
    (st.setStr k v).getStr k = some v := by
  simp [RedisState.setStr, RedisState.getStr, List.find?]

theorem getStr_setStr_ne (st : RedisState) (k v k' : String) (h : k' ≠ k) :
    (st.setStr k v).getStr k' = st.getStr k' := by
  simp [RedisState.setStr, RedisState.getStr, List.find?, Ne.symm h]

theorem getStr_rpush (st : RedisState) (k v k' : String) :
    (st.rpush k v).getStr k' = st.getStr k' := by
  simp [RedisState.rpush, RedisState.getStr]

theorem lrange_setStr (st : RedisState) (k v k' : String) :
    (st.setStr k v).lrange k' = st.lrange k' := by
  simp [RedisState.setStr, RedisState.lrange]

theorem lrange_rpush_self (st : RedisState) (k v : String) :
    (st.rpush k v).lrange k = st.lrange k ++ [v] := by
  simp [RedisState.rpush, RedisState.lrange, List.find?]

theorem lrange_rpush_ne (st : RedisState) (k v k' : String) (h : k' ≠ k) :
    (st.rpush k v).lrange k' = st.lrange k' := by
  simp [RedisState.rpush, RedisState.lrange, List.find?, Ne.symm h]

/-- Left-cancellation for string append. -/
theorem string_append_left_cancel {a b c : String} (h : a ++ b = a ++ c) :
    b = c := by
  have hd : (a ++ b).data = (a ++ c).data := by rw [h]
  simp only [String.data_append] at hd
  exact String.ext (List.append_cancel_left hd)

theorem inputs_key_ne_outputs_key (q : String) :
    q ++ ":inputs" ≠ q ++ ":outputs" := by
  intro h
  have := string_append_left_cancel h
  simp at this

/-- Errors a Python call can raise, kept abstract as a message. -/
abbrev PyErr := String

/-- The `call_history` decorator of `exercise.py`.  A bound method is a
state transformer `RedisState → PyVal → Except PyErr β × RedisState`
(the receiver's redis handle is the state; one positional argument; the
result may be an exception).  `ser` models Python's `str` applied
to the output value.  The wrapper appends `str(args[1:])` to
`<qualname>:inputs`, invokes the method, and on normal return appends
`str(output)` to `<qualname>:outputs`; an exception propagates with no
outputs append. -/
def call_history {β : Type} (ser : β → String) (qualname : String)
    (method : RedisState → PyVal → Except PyErr β × RedisState)
    (st : RedisState) (arg : PyVal) : Except PyErr β × RedisState :=
  match method (st.rpush (qualname ++ ":inputs") (pyStrArgs arg)) arg with
  | (Except.ok output, st2) =>
    (Except.ok output, st2.rpush (qualname ++ ":outputs") (ser output))
  | (Except.error e, st2) => (Except.error e, st2)

/-- Lift an infallible method into the fallible method shape. -/
def okLift {β : Type} (m : RedisState → PyVal → β × RedisState) :
    RedisState → PyVal → Except PyErr β × RedisState :=
  fun st a => (Except.ok (m st a).1, (m st a).2)

/-- The body of `Cache.store` (the undecorated method): generate a key,
`SET` the data under it, return the key.  The `uuid4` key is modelled as
an explicit parameter, since its generation is a random effect outside
the program text. -/
def Cache.store_inner (key : String) (st : RedisState) (data : PyVal) :
    String × RedisState :=
  (key, st.setStr key data.toBytes)

/-- `Cache.store` as the program exposes it: `store_inner` wrapped by
`call_history` under qualified name `Cache.store`.  The output is a
string key, so `str(output)` is the key itself. -/
def Cache.store (key : String) (st : RedisState) (data : PyVal) :
    Except PyErr String × RedisState :=
  call_history (fun s => s) "Cache.store" (okLift (Cache.store_inner key)) st data

/-- `Cache.get`: read raw bytes at `key`; absent gives `none` with the
converter untouched; a supplied converter is applied to the bytes;
otherwise the raw bytes come back.  Converters may carry their own
effects in Python, so they are modelled as state transformers over an
arbitrary converter state `σ`; a pure converter ignores `σ`. -/
def Cache.get {σ : Type} (st : RedisState) (key : String)
    (fn : Option (String → σ → PyVal × σ)) (s : σ) : Option PyVal × σ :=
  match st.getStr key with
  | none => (none, s)
  | some data =>
    match fn with
    | some f =>
      let (v, s1) := f data s
      (some v, s1)
    | none => (some (PyVal.bytes data), s)

/-- A sequence of `Cache.store` calls (each with its generated key),
threading the redis state. -/
def runStores : RedisState → List (String × PyVal) → RedisState
  | st, [] => st
  | st, kv :: rest => runStores (Cache.store kv.1 st kv.2).2 rest

/-- A sequence of successful calls to an infallible method wrapped by
`call_history`: returns the list of outputs in call order and the final
state. -/
def runRecorded {β : Type} (ser : β → String) (qualname : String)
    (m : RedisState → PyVal → β × RedisState) :
    RedisState → List PyVal → List β × RedisState
  | st, [] => ([], st)
  | st, a :: rest =>
    match call_history ser qualname (okLift m) st a with
    | (Except.ok out, st1) =>
      (out :: (runRecorded ser qualname m st1 rest).1,
       (runRecorded ser qualname m st1 rest).2)
    | (Except.error _, st1) => ([], st1)

/-- Modelled from the spec: the repository has no ReplayViewer source
(the spec's §4.3 `replay` has no counterpart under `src/`); this follows
the spec's words: read the full inputs and outputs sequences, pair them
positionally, render one line per pair as
`<identity>(*<input>) -> <output>`, preceded by a header stating the
total call count, the length of the inputs sequence.  The result is the
header count together with the rendered lines. -/
def replay (st : RedisState) (qualname : String) : Nat × List String :=
  let inputs := st.lrange (qualname ++ ":inputs")
  let outputs := st.lrange (qualname ++ ":outputs")
  (inputs.length,
   (inputs.zip outputs).map (fun p => qualname ++ "(*" ++ p.1 ++ ") -> " ++ p.2))

/-!
## The `web.py` side

One redis keyspace; each entry is a key, a stored value, and an optional
absolute expiration instant.  The current time is a `Nat` passed to every
operation; an entry whose expiration is `some e` is visible only while
`now < e` (SETEX with ttl `t` at time `now` expires at `now + t`).
-/

/-- A stored redis value.  Redis keeps everything as a byte string but
tracks an integer encoding for counters; `INCR` produces the integer
form, `GET` renders it in decimal. -/
inductive RVal where
  | s (v : String)
  | n (v : Int)
deriving DecidableEq, Repr

/-- The byte string `GET` returns for a stored value. -/
def RVal.render : RVal → String
  | .s v => v
  | .n v => toString v

/-- Decimal digits to a number; `none` on empty input or a non-digit. -/
def decNat? (cs : List Char) : Option Nat :=
  if cs = [] then none
  else cs.foldl
    (fun acc c => acc.bind (fun m => if c.isDigit then some (10 * m + (c.toNat - 48)) else none))
    (some 0)

/-- Parse an optionally signed decimal integer (the format `INCR`
accepts). -/
def strToInt? (t : String) : Option Int :=
  match t.data with
  | List.cons c cs => if c = Char.ofNat 45 then (decNat? cs).map (fun m => -(m : Int))
      else (decNat? (List.cons c cs)).map (fun m => (m : Int))
  | [] => none

/-- The integer reading of a stored value, when it has one: an
integer-encoded value reads as itself and a byte string reads as the
decimal integer it spells, if any.  `INCR` raises on a value with no
integer reading. -/
def RVal.asInt? : RVal → Option Int
  | .n v => some v
  | .s v => strToInt? v

/-- The redis keyspace used by `web.py`. -/
structure WebState where
  entries : List (String × RVal × Option Nat)
deriving DecidableEq, Repr

/-- The keyspace with no entries. -/
def emptyWeb : WebState := ⟨[]⟩

/-- First entry stored under a key (replacement modelled by shadowing). -/
def findEntry : List (String × RVal × Option Nat) → String → Option (RVal × Option Nat)
  | [], _ => none
  | e :: rest, key => if e.1 = key then some e.2 else findEntry rest key

/-- The live entry at `key` at time `now`: the stored entry unless its
expiration has passed (an expired key reads as absent). -/
def WebState.lookupLive (st : WebState) (key : String) (now : Nat) :
    Option (RVal × Option Nat) :=
  match findEntry st.entries key with
  | none => none
  | some (v, none) => some (v, none)
  | some (v, some e) => if now < e then some (v, some e) else none

/-- `GET key` at time `now`: the rendered live value. -/
def WebState.getAt (st : WebState) (key : String) (now : Nat) : Option String :=
  (st.lookupLive key now).map (fun p => p.1.render)

/-- `SETEX key ttl v` at time `now`: store `v` with expiration
`now + ttl`, replacing any prior entry. -/
def WebState.setex (st : WebState) (key : String) (ttl : Nat) (v : String)
    (now : Nat) : WebState :=
  ⟨(key, RVal.s v, some (now + ttl)) :: st.entries⟩

/-- `INCR key` at time `now`, as a state transition: an absent (or
expired) key becomes `1` with no expiration; a live integer entry is
bumped by one, its remaining expiration preserved.  On a live value
with no integer reading redis raises `ERR value is not an integer or
out of range` and leaves the store unmodified, so the transition there
is the identity; `WebState.incrOk` separately records whether the
operation succeeds rather than raises. -/
def WebState.incr (st : WebState) (key : String) (now : Nat) : WebState :=
  match st.lookupLive key now with
  | none => ⟨(key, RVal.n 1, none) :: st.entries⟩
  | some (v, e) =>
    match v.asInt? with
    | some i => ⟨(key, RVal.n (i + 1), e) :: st.entries⟩
    | none => st

/-- Whether `INCR key` at time `now` succeeds rather than raising: the
key is absent (or expired), or its live value has an integer reading. -/
def WebState.incrOk (st : WebState) (key : String) (now : Nat) : Bool :=
  match st.lookupLive key now with
  | none => true
  | some (v, _) => (v.asInt?).isSome

/-- The wrapper produced by `cache_expiration(expiration)` in `web.py`
around a fetch function.  The fetch function may raise and may carry its
own state `σ` (a counting stub threads a counter through it).  Steps, in
source order: `INCR count:<url>`; `GET url`; a non-empty cached page is
returned as a hit (`if cached_page:` is Python truthiness, so both an
absent key and empty bytes read as a miss — encoded as `getD ""` against
the empty string); otherwise the underlying fetch runs, its result is
stored with `SETEX` under the bare url, and returned.  A fetch failure
propagates after the counter increment, with nothing cached.  The local
`r1` of the source (the state after the increment) is written out
inline.  When the `INCR` itself raises (its key holds a value with no
integer reading) the Python wrapper propagates before the `GET`; the
model continues from the then-unmodified store, and every theorem about
counter values at that key guards the case with `WebState.incrOk`. -/
def cacheWrapper {σ : Type} (func : String → σ → Except PyErr String × σ)
    (expiration : Nat) (url : String) (now : Nat) (r : WebState) (s : σ) :
    Except PyErr String × WebState × σ :=
  if ((r.incr ("count:" ++ url) now).getAt url now).getD "" ≠ "" then
    (Except.ok (((r.incr ("count:" ++ url) now).getAt url now).getD ""),
     r.incr ("count:" ++ url) now, s)
  else
    match func url s with
    | (Except.ok page_content, s2) =>
      (Except.ok page_content,
       (r.incr ("count:" ++ url) now).setex url expiration page_content now, s2)
    | (Except.error e, s2) =>
      (Except.error e, r.incr ("count:" ++ url) now, s2)

/-- The integer value of the access counter of `url` at time `now`.  An
absent (or expired) key reads as zero, `INCR`'s base case.  A stored
value with no integer reading also defaults to zero, but only as a
placeholder: every theorem below reads the counter at integer-valued or
absent states. -/
def WebState.counterInt (st : WebState) (url : String) (now : Nat) : Int :=
  match st.lookupLive ("count:" ++ url) now with
  | some (v, _) => (v.asInt?).getD 0
  | none => 0

/-- Whether the access-counter key of `url` carries no expiration (true
also when absent). -/
def WebState.countNoTTL (st : WebState) (url : String) : Bool :=
  match findEntry st.entries ("count:" ++ url) with
  | none => true
  | some (_, none) => true
  | some (_, some _) => false

theorem count_key_ne (u : String) : "count:" ++ u ≠ u := by
  intro h
  have hl : ("count:" ++ u).length = u.length := by rw [h]
  rw [String.length_append] at hl
  have h6 : ("count:" : String).length = 6 := rfl
  omega

theorem count_key_inj {u v : String} (h : "count:" ++ u = "count:" ++ v) :
    u = v :=
  string_append_left_cancel h

theorem findEntry_cons_ne (l : List (String × RVal × Option Nat))
    (a : String) (v : RVal) (e : Option Nat) (k : String) (h : a ≠ k) :
    findEntry ((a, v, e) :: l) k = findEntry l k := by
  simp [findEntry, h]

theorem findEntry_cons_self (l : List (String × RVal × Option Nat))
    (a : String) (v : RVal) (e : Option Nat) :
    findEntry ((a, v, e) :: l) a = some (v, e) := by
  simp [findEntry]

theorem findEntry_incr_ne (st : WebState) (key k : String) (now : Nat)
    (h : key ≠ k) : findEntry (st.incr key now).entries k = findEntry st.entries k := by
  unfold WebState.incr
  cases hl : st.lookupLive key now with
  | none => exact findEntry_cons_ne _ _ _ _ _ h
  | some p =>
    cases p with
    | mk v e =>
      dsimp only
      cases hv : v.asInt? with
      | some i => exact findEntry_cons_ne _ _ _ _ _ h
      | none => rfl

theorem findEntry_setex_ne (st : WebState) (key k : String)
    (ttl : Nat) (v : String) (now : Nat) (h : key ≠ k) :
    findEntry (st.setex key ttl v now).entries k = findEntry st.entries k := by
  unfold WebState.setex
  exact findEntry_cons_ne _ _ _ _ _ h

theorem lookupLive_of_findEntry_eq {st st' : WebState} {k : String}
    (h : findEntry st'.entries k = findEntry st.entries k) (now : Nat) :
    st'.lookupLive k now = st.lookupLive k now := by
  unfold WebState.lookupLive
  rw [h]

/-!
## Helper lemmas about the embedded operations
-/

theorem call_history_okLift {β : Type} (ser : β → String) (q : String)
    (m : RedisState → PyVal → β × RedisState) (st : RedisState) (a : PyVal) :
    call_history ser q (okLift m) st a
      = (Except.ok (m (st.rpush (q ++ ":inputs") (pyStrArgs a)) a).1,
         ((m (st.rpush (q ++ ":inputs") (pyStrArgs a)) a).2).rpush (q ++ ":outputs")
           (ser (m (st.rpush (q ++ ":inputs") (pyStrArgs a)) a).1)) := rfl

theorem store_fst (key : String) (st : RedisState) (v : PyVal) :
    (Cache.store key st v).1 = Except.ok key := by
  rw [Cache.store, call_history_okLift]
  rfl

theorem getStr_store_self (key : String) (st : RedisState) (v : PyVal) :
    (Cache.store key st v).2.getStr key = some v.toBytes := by
  rw [Cache.store, call_history_okLift]
  simp [Cache.store_inner, getStr_rpush, getStr_setStr_self]

theorem getStr_store_ne (key : String) (st : RedisState) (v : PyVal)
    (k : String) (h : k ≠ key) :
    (Cache.store key st v).2.getStr k = st.getStr k := by
  rw [Cache.store, call_history_okLift]
  simp [Cache.store_inner, getStr_rpush, getStr_setStr_ne _ _ _ _ h]

theorem lrange_store_inputs (key : String) (st : RedisState) (v : PyVal) :
    (Cache.store key st v).2.lrange "Cache.store:inputs"
      = st.lrange "Cache.store:inputs" ++ [pyStrArgs v] := by
  rw [Cache.store, call_history_okLift]
  simp [Cache.store_inner, lrange_setStr, lrange_rpush_self,
        lrange_rpush_ne _ _ _ _
          (by decide : ("Cache.store:inputs" : String) ≠ "Cache.store:outputs")]

theorem lrange_store_outputs (key : String) (st : RedisState) (v : PyVal) :
    (Cache.store key st v).2.lrange "Cache.store:outputs"
      = st.lrange "Cache.store:outputs" ++ [key] := by
  rw [Cache.store, call_history_okLift]
  simp [Cache.store_inner, lrange_setStr, lrange_rpush_self,
        lrange_rpush_ne _ _ _ _
          (by decide : ("Cache.store:outputs" : String) ≠ "Cache.store:inputs")]

theorem lrange_store_ne (key : String) (st : RedisState) (v : PyVal)
    (k : String) (h1 : k ≠ "Cache.store:inputs")
    (h2 : k ≠ "Cache.store:outputs") :
    (Cache.store key st v).2.lrange k = st.lrange k := by
  rw [Cache.store, call_history_okLift]
  simp [Cache.store_inner, lrange_setStr,
        lrange_rpush_ne _ _ _ _ h1, lrange_rpush_ne _ _ _ _ h2]

theorem runStores_getStr (trace : List (String × PyVal)) (st : RedisState)
    (k : String) (hk : k ∉ trace.map Prod.fst) :
    (runStores st trace).getStr k = st.getStr k := by
  induction trace generalizing st with
  | nil => rfl
  | cons kv rest ih =>
    simp only [List.map_cons, List.mem_cons] at hk
    push_neg at hk
    rw [runStores, ih _ hk.2, getStr_store_ne _ _ _ _ hk.1]

/-!
## C1: round trip through store and an identity retrieve
-/

/-- C1 counterexample: the claim `retrieve(store(v)) == v` fails for the
stored integer `5`.  `store` serializes the value to bytes and an
identity retrieve hands those raw bytes back, so the round trip returns
the byte string `b"5"`, not the integer `5`. -/
theorem C1_roundtrip_cex :
    (Cache.get (σ := Unit) (Cache.store "6f1c" emptyRedis (PyVal.int 5)).2
        "6f1c" none ()).1 ≠ some (PyVal.int 5) := by
  decide

/-- C1 amended: retrieving with an identity converter the key returned
by `store(v)` yields the byte serialization of `v`; this equals `v`
itself exactly when `v` already is that binary blob. -/
theorem C1_roundtrip_amended (st : RedisState) (key : String) (v : PyVal) :
    (Cache.get (σ := Unit) (Cache.store key st v).2 key none ()).1
      = some (PyVal.bytes v.toBytes)
    ∧ ((Cache.get (σ := Unit) (Cache.store key st v).2 key none ()).1
        = some v ↔ v = PyVal.bytes v.toBytes) := by
  have h1 : (Cache.get (σ := Unit) (Cache.store key st v).2 key none ()).1
      = some (PyVal.bytes v.toBytes) := by
    simp [Cache.get, getStr_store_self]
  refine ⟨h1, ?_⟩
  rw [h1]
  constructor
  · intro h
    exact (Option.some_inj.mp h).symm
  · intro h
    rw [← h]

/-!
## C2: retrieval of a never-stored key is absent, converter untouched
-/

/-- C2: starting from the flushed state, after any sequence of `store`
calls, `get` on a key that no `store` call returned yields `none`, and a
supplied converter is never invoked (its threaded state comes back
unchanged). -/
theorem C2_get_never_stored {σ : Type} (trace : List (String × PyVal))
    (k : String) (hk : k ∉ trace.map Prod.fst)
    (fn : Option (String → σ → PyVal × σ)) (s : σ) :
    Cache.get (runStores emptyRedis trace) k fn s = (none, s) := by
  have habs : (runStores emptyRedis trace).getStr k = none := by
    rw [runStores_getStr _ _ _ hk]
    rfl
  simp [Cache.get, habs]

/-- C2 witness: the concrete key `"b"` is not among the keys generated
by a one-call trace, and `get` with a counting converter returns
`(none, 0)` with the converter state untouched. -/
theorem C2_get_never_stored_witness :
    "b" ∉ ([("a", PyVal.str "x")].map Prod.fst)
    ∧ Cache.get (runStores emptyRedis [("a", PyVal.str "x")]) "b"
        (some (fun d n => (PyVal.bytes d, n + 1))) 0 = (none, 0) :=
  ⟨by decide, C2_get_never_stored [("a", PyVal.str "x")] "b" (by decide) _ 0⟩

/-!
## C3: inputs/outputs history after a run of successful recorded calls
-/

theorem call_history_ok {β : Type} (ser : β → String) (q : String)
    (m : RedisState → PyVal → Except PyErr β × RedisState)
    (st : RedisState) (a : PyVal) (out : β)
    (hok : (m (st.rpush (q ++ ":inputs") (pyStrArgs a)) a).1 = Except.ok out) :
    call_history ser q m st a
      = (Except.ok out,
         ((m (st.rpush (q ++ ":inputs") (pyStrArgs a)) a).2).rpush (q ++ ":outputs")
           (ser out)) := by
  have hm : m (st.rpush (q ++ ":inputs") (pyStrArgs a)) a
      = (Except.ok out, (m (st.rpush (q ++ ":inputs") (pyStrArgs a)) a).2) :=
    Prod.ext hok rfl
  unfold call_history
  rw [hm]

theorem call_history_error {β : Type} (ser : β → String) (q : String)
    (m : RedisState → PyVal → Except PyErr β × RedisState)
    (st : RedisState) (a : PyVal) (e : PyErr)
    (hfail : (m (st.rpush (q ++ ":inputs") (pyStrArgs a)) a).1 = Except.error e) :
    call_history ser q m st a
      = (Except.error e, (m (st.rpush (q ++ ":inputs") (pyStrArgs a)) a).2) := by
  have hm : m (st.rpush (q ++ ":inputs") (pyStrArgs a)) a
      = (Except.error e, (m (st.rpush (q ++ ":inputs") (pyStrArgs a)) a).2) :=
    Prod.ext hfail rfl
  unfold call_history
  rw [hm]

theorem runRecorded_cons {β : Type} (ser : β → String) (q : String)
    (m : RedisState → PyVal → β × RedisState) (st : RedisState)
    (a : PyVal) (rest : List PyVal) :
    runRecorded ser q m st (a :: rest)
      = ((m (st.rpush (q ++ ":inputs") (pyStrArgs a)) a).1 ::
          (runRecorded ser q m
            (((m (st.rpush (q ++ ":inputs") (pyStrArgs a)) a).2).rpush (q ++ ":outputs")
              (ser (m (st.rpush (q ++ ":inputs") (pyStrArgs a)) a).1)) rest).1,
         (runRecorded ser q m
            (((m (st.rpush (q ++ ":inputs") (pyStrArgs a)) a).2).rpush (q ++ ":outputs")
              (ser (m (st.rpush (q ++ ":inputs") (pyStrArgs a)) a).1)) rest).2) := by
  rw [runRecorded, call_history_okLift]

theorem runRecorded_lrange {β : Type} (ser : β → String) (q : String)
    (m : RedisState → PyVal → β × RedisState)
    (hIn : ∀ s a, ((m s a).2).lrange (q ++ ":inputs") = s.lrange (q ++ ":inputs"))
    (hOut : ∀ s a, ((m s a).2).lrange (q ++ ":outputs") = s.lrange (q ++ ":outputs"))
    (args : List PyVal) (st : RedisState) :
    (runRecorded ser q m st args).2.lrange (q ++ ":inputs")
        = st.lrange (q ++ ":inputs") ++ args.map pyStrArgs
    ∧ (runRecorded ser q m st args).2.lrange (q ++ ":outputs")
        = st.lrange (q ++ ":outputs") ++ (runRecorded ser q m st args).1.map ser
    ∧ (runRecorded ser q m st args).1.length = args.length := by
  induction args generalizing st with
  | nil => simp [runRecorded]
  | cons a rest ih =>
    rw [runRecorded_cons]
    obtain ⟨h1, h2, h3⟩ := ih ((((m (st.rpush (q ++ ":inputs") (pyStrArgs a)) a)).2).rpush
      (q ++ ":outputs") (ser (m (st.rpush (q ++ ":inputs") (pyStrArgs a)) a).1))
    refine ⟨?_, ?_, ?_⟩
    · show (runRecorded ser q m _ rest).2.lrange (q ++ ":inputs") = _
      rw [h1, lrange_rpush_ne _ _ _ _ (inputs_key_ne_outputs_key q), hIn,
          lrange_rpush_self]
      simp
    · show (runRecorded ser q m _ rest).2.lrange (q ++ ":outputs") = _
      rw [h2, lrange_rpush_self, hOut,
          lrange_rpush_ne _ _ _ _ (Ne.symm (inputs_key_ne_outputs_key q))]
      simp
    · show ((_ :: (runRecorded ser q m _ rest).1).length = _)
      simp [h3]

/-- C3: after `n` successful calls to an operation wrapped by
`call_history` (any operation that, like `store`, does not itself touch
the two history lists), starting from empty history, the inputs list
holds the `n` serialized argument tuples in call order and the outputs
list holds the `n` serialized results in call order, so both have length
`n`, and the `i`-th output is the serialization of the result of the
call that recorded the `i`-th input. -/
theorem C3_history_parallel {β : Type} (ser : β → String) (q : String)
    (m : RedisState → PyVal → β × RedisState)
    (hIn : ∀ s a, ((m s a).2).lrange (q ++ ":inputs") = s.lrange (q ++ ":inputs"))
    (hOut : ∀ s a, ((m s a).2).lrange (q ++ ":outputs") = s.lrange (q ++ ":outputs"))
    (args : List PyVal) (st : RedisState)
    (hIn0 : st.lrange (q ++ ":inputs") = [])
    (hOut0 : st.lrange (q ++ ":outputs") = []) :
    (runRecorded ser q m st args).2.lrange (q ++ ":inputs") = args.map pyStrArgs
    ∧ (runRecorded ser q m st args).2.lrange (q ++ ":outputs")
        = (runRecorded ser q m st args).1.map ser
    ∧ ((runRecorded ser q m st args).2.lrange (q ++ ":inputs")).length = args.length
    ∧ ((runRecorded ser q m st args).2.lrange (q ++ ":outputs")).length = args.length
    ∧ (runRecorded ser q m st args).1.length = args.length := by
  obtain ⟨h1, h2, h3⟩ := runRecorded_lrange ser q m hIn hOut args st
  rw [hIn0] at h1
  rw [hOut0] at h2
  simp only [List.nil_append] at h1 h2
  refine ⟨h1, h2, ?_, ?_, h3⟩
  · rw [h1]
    simp
  · rw [h2]
    simp [h3]

/-- C3 witness: two concrete wrapped `store` calls from the flushed
state, with generated key `"k9"`: the two history lists hold the two
expected serialized entries, both of length 2. -/
theorem C3_history_parallel_witness :
    (runRecorded (fun s => s) "Cache.store" (Cache.store_inner "k9") emptyRedis
        [PyVal.str "a", PyVal.int 2]).2.lrange ("Cache.store" ++ ":inputs")
      = [PyVal.str "a", PyVal.int 2].map pyStrArgs
    ∧ (runRecorded (fun s => s) "Cache.store" (Cache.store_inner "k9") emptyRedis
        [PyVal.str "a", PyVal.int 2]).2.lrange ("Cache.store" ++ ":outputs")
      = (runRecorded (fun s => s) "Cache.store" (Cache.store_inner "k9") emptyRedis
          [PyVal.str "a", PyVal.int 2]).1.map (fun s => s)
    ∧ ((runRecorded (fun s => s) "Cache.store" (Cache.store_inner "k9") emptyRedis
        [PyVal.str "a", PyVal.int 2]).2.lrange ("Cache.store" ++ ":inputs")).length = 2
    ∧ ((runRecorded (fun s => s) "Cache.store" (Cache.store_inner "k9") emptyRedis
        [PyVal.str "a", PyVal.int 2]).2.lrange ("Cache.store" ++ ":outputs")).length = 2
    ∧ (runRecorded (fun s => s) "Cache.store" (Cache.store_inner "k9") emptyRedis
        [PyVal.str "a", PyVal.int 2]).1.length = 2 :=
  C3_history_parallel (fun s => s) "Cache.store" (Cache.store_inner "k9")
    (fun s a => lrange_setStr s "k9" (PyVal.toBytes a) _)
    (fun s a => lrange_setStr s "k9" (PyVal.toBytes a) _)
    [PyVal.str "a", PyVal.int 2] emptyRedis rfl rfl

/-!
## C4: a failing recorded call
-/

/-- C4: when the wrapped operation raises (and, like `store`, does not
itself touch the history lists), the wrapper propagates the failure, the
serialized input tuple was already appended to the inputs list, nothing
is appended to the outputs list, and if the two lists had equal length
before the call the inputs list ends up exactly one entry longer. -/
theorem C4_failing_call {β : Type} (ser : β → String) (q : String)
    (m : RedisState → PyVal → Except PyErr β × RedisState)
    (st : RedisState) (arg : PyVal) (e : PyErr)
    (hfail : (m (st.rpush (q ++ ":inputs") (pyStrArgs arg)) arg).1 = Except.error e)
    (hIn : ∀ s a, ((m s a).2).lrange (q ++ ":inputs") = s.lrange (q ++ ":inputs"))
    (hOut : ∀ s a, ((m s a).2).lrange (q ++ ":outputs") = s.lrange (q ++ ":outputs")) :
    (call_history ser q m st arg).1 = Except.error e
    ∧ (call_history ser q m st arg).2.lrange (q ++ ":inputs")
        = st.lrange (q ++ ":inputs") ++ [pyStrArgs arg]
    ∧ (call_history ser q m st arg).2.lrange (q ++ ":outputs")
        = st.lrange (q ++ ":outputs")
    ∧ ((st.lrange (q ++ ":inputs")).length = (st.lrange (q ++ ":outputs")).length →
        ((call_history ser q m st arg).2.lrange (q ++ ":inputs")).length
          = ((call_history ser q m st arg).2.lrange (q ++ ":outputs")).length + 1) := by
  rw [call_history_error ser q m st arg e hfail]
  refine ⟨rfl, ?_, ?_, ?_⟩
  · show ((m (st.rpush (q ++ ":inputs") (pyStrArgs arg)) arg).2).lrange (q ++ ":inputs") = _
    rw [hIn, lrange_rpush_self]
  · show ((m (st.rpush (q ++ ":inputs") (pyStrArgs arg)) arg).2).lrange (q ++ ":outputs") = _
    rw [hOut, lrange_rpush_ne _ _ _ _ (Ne.symm (inputs_key_ne_outputs_key q))]
  · intro hlen
    show (((m (st.rpush (q ++ ":inputs") (pyStrArgs arg)) arg).2).lrange (q ++ ":inputs")).length = _
    rw [hIn, hOut, lrange_rpush_self,
        lrange_rpush_ne _ _ _ _ (Ne.symm (inputs_key_ne_outputs_key q))]
    simp [hlen]

/-- C4 witness: a concrete operation that raises `"boom"` without
touching any list, wrapped and called once from the flushed state. -/
theorem C4_failing_call_witness :
    (call_history (fun (s : String) => s) "Cache.store"
        (fun s _ => (Except.error "boom", s)) emptyRedis (PyVal.int 7)).1
      = Except.error "boom"
    ∧ (call_history (fun (s : String) => s) "Cache.store"
        (fun s _ => (Except.error "boom", s)) emptyRedis (PyVal.int 7)).2.lrange
          ("Cache.store" ++ ":inputs")
      = emptyRedis.lrange ("Cache.store" ++ ":inputs") ++ [pyStrArgs (PyVal.int 7)]
    ∧ (call_history (fun (s : String) => s) "Cache.store"
        (fun s _ => (Except.error "boom", s)) emptyRedis (PyVal.int 7)).2.lrange
          ("Cache.store" ++ ":outputs")
      = emptyRedis.lrange ("Cache.store" ++ ":outputs")
    ∧ ((call_history (fun (s : String) => s) "Cache.store"
        (fun s _ => (Except.error "boom", s)) emptyRedis (PyVal.int 7)).2.lrange
          ("Cache.store" ++ ":inputs")).length
      = ((call_history (fun (s : String) => s) "Cache.store"
          (fun s _ => (Except.error "boom", s)) emptyRedis (PyVal.int 7)).2.lrange
            ("Cache.store" ++ ":outputs")).length + 1 := by
  obtain ⟨h1, h2, h3, h4⟩ := C4_failing_call (fun (s : String) => s) "Cache.store"
    (fun s _ => (Except.error "boom", s)) emptyRedis (PyVal.int 7) "boom"
    rfl (fun _ _ => rfl) (fun _ _ => rfl)
  exact ⟨h1, h2, h3, h4 rfl⟩

/-!
## C8: transparency of the recorder and its exact side effects
-/

/-- C8: for a recorded call that completes, the wrapper returns exactly
the wrapped operation's value; every plain string key reads as it does
after the operation's own effect; and relative to the state before the
call the only list mutations beyond the operation's own are the two
appends: the serialized positional-argument tuple (receiver excluded)
onto the inputs list and the serialized return value onto the outputs
list — any other list key reads as after the operation's own effect.
(The wrapped operation is assumed, like `store`, not to touch the two
history lists itself.) -/
theorem C8_transparent_recorder {β : Type} (ser : β → String) (q : String)
    (m : RedisState → PyVal → Except PyErr β × RedisState)
    (st : RedisState) (arg : PyVal) (out : β)
    (hok : (m (st.rpush (q ++ ":inputs") (pyStrArgs arg)) arg).1 = Except.ok out)
    (hIn : ∀ s a, ((m s a).2).lrange (q ++ ":inputs") = s.lrange (q ++ ":inputs"))
    (hOut : ∀ s a, ((m s a).2).lrange (q ++ ":outputs") = s.lrange (q ++ ":outputs")) :
    (call_history ser q m st arg).1 = Except.ok out
    ∧ (∀ k, (call_history ser q m st arg).2.getStr k
        = ((m (st.rpush (q ++ ":inputs") (pyStrArgs arg)) arg).2).getStr k)
    ∧ (call_history ser q m st arg).2.lrange (q ++ ":inputs")
        = st.lrange (q ++ ":inputs") ++ [pyStrArgs arg]
    ∧ (call_history ser q m st arg).2.lrange (q ++ ":outputs")
        = st.lrange (q ++ ":outputs") ++ [ser out]
    ∧ (∀ k, k ≠ q ++ ":inputs" → k ≠ q ++ ":outputs" →
        (call_history ser q m st arg).2.lrange k
          = ((m (st.rpush (q ++ ":inputs") (pyStrArgs arg)) arg).2).lrange k) := by
  rw [call_history_ok ser q m st arg out hok]
  refine ⟨rfl, ?_, ?_, ?_, ?_⟩
  · intro k
    exact getStr_rpush _ _ _ _
  · show ((((m (st.rpush (q ++ ":inputs") (pyStrArgs arg)) arg).2).rpush (q ++ ":outputs")
        (ser out)).lrange (q ++ ":inputs")) = _
    rw [lrange_rpush_ne _ _ _ _ (inputs_key_ne_outputs_key q), hIn, lrange_rpush_self]
  · show ((((m (st.rpush (q ++ ":inputs") (pyStrArgs arg)) arg).2).rpush (q ++ ":outputs")
        (ser out)).lrange (q ++ ":outputs")) = _
    rw [lrange_rpush_self, hOut,
        lrange_rpush_ne _ _ _ _ (Ne.symm (inputs_key_ne_outputs_key q))]
  · intro k hk1 hk2
    exact lrange_rpush_ne _ _ _ _ hk2

/-- C8 witness: one wrapped `store` call with generated key `"k7"` from
the flushed state, instantiating the binder-free conjuncts and the
other-keys conjunct at the concrete key `"other"`. -/
theorem C8_transparent_recorder_witness :
    (call_history (fun s => s) "Cache.store" (okLift (Cache.store_inner "k7"))
        emptyRedis (PyVal.str "cat")).1 = Except.ok "k7"
    ∧ (call_history (fun s => s) "Cache.store" (okLift (Cache.store_inner "k7"))
        emptyRedis (PyVal.str "cat")).2.getStr "k7"
      = ((okLift (Cache.store_inner "k7") (emptyRedis.rpush ("Cache.store" ++ ":inputs")
          (pyStrArgs (PyVal.str "cat"))) (PyVal.str "cat")).2).getStr "k7"
    ∧ (call_history (fun s => s) "Cache.store" (okLift (Cache.store_inner "k7"))
        emptyRedis (PyVal.str "cat")).2.lrange ("Cache.store" ++ ":inputs")
      = emptyRedis.lrange ("Cache.store" ++ ":inputs") ++ [pyStrArgs (PyVal.str "cat")]
    ∧ (call_history (fun s => s) "Cache.store" (okLift (Cache.store_inner "k7"))
        emptyRedis (PyVal.str "cat")).2.lrange ("Cache.store" ++ ":outputs")
      = emptyRedis.lrange ("Cache.store" ++ ":outputs") ++ ["k7"]
    ∧ (call_history (fun s => s) "Cache.store" (okLift (Cache.store_inner "k7"))
        emptyRedis (PyVal.str "cat")).2.lrange "other"
      = ((okLift (Cache.store_inner "k7") (emptyRedis.rpush ("Cache.store" ++ ":inputs")
          (pyStrArgs (PyVal.str "cat"))) (PyVal.str "cat")).2).lrange "other" := by
  obtain ⟨h1, h2, h3, h4, h5⟩ := C8_transparent_recorder (fun s => s) "Cache.store"
    (okLift (Cache.store_inner "k7")) emptyRedis (PyVal.str "cat") "k7"
    rfl (fun s a => lrange_setStr s "k7" (PyVal.toBytes a) _)
    (fun s a => lrange_setStr s "k7" (PyVal.toBytes a) _)
  exact ⟨h1, h2 "k7", h3, h4, h5 "other" (by decide) (by decide)⟩

/-!
## C9: replay line count and header count
-/

/-- C9: `replay` renders one line per positional input/output pair, and
when the equal-length invariant holds (every recorded call completed)
the line count and the header's stated call count both equal the length
of the inputs sequence. -/
theorem C9_replay_counts (st : RedisState) (q : String)
    (hlen : (st.lrange (q ++ ":outputs")).length = (st.lrange (q ++ ":inputs")).length) :
    (replay st q).1 = (st.lrange (q ++ ":inputs")).length
    ∧ (replay st q).2.length
        = ((st.lrange (q ++ ":inputs")).zip (st.lrange (q ++ ":outputs"))).length
    ∧ (replay st q).2.length = (st.lrange (q ++ ":inputs")).length := by
  refine ⟨rfl, ?_, ?_⟩
  · simp [replay]
  · simp [replay, hlen]

/-- C9 witness: a concrete state holding one recorded call for identity
`"Cache.store"`: header count 1 and a single rendered line. -/
theorem C9_replay_counts_witness :
    ((RedisState.mk [] [("Cache.store:inputs", ["(3,)"]), ("Cache.store:outputs", ["k1"])]).lrange
        ("Cache.store" ++ ":outputs")).length
      = ((RedisState.mk [] [("Cache.store:inputs", ["(3,)"]), ("Cache.store:outputs", ["k1"])]).lrange
        ("Cache.store" ++ ":inputs")).length
    ∧ (replay (RedisState.mk [] [("Cache.store:inputs", ["(3,)"]), ("Cache.store:outputs", ["k1"])])
        "Cache.store").1 = 1
    ∧ (replay (RedisState.mk [] [("Cache.store:inputs", ["(3,)"]), ("Cache.store:outputs", ["k1"])])
        "Cache.store").2.length = 1 := by
  have h := C9_replay_counts
    (RedisState.mk [] [("Cache.store:inputs", ["(3,)"]), ("Cache.store:outputs", ["k1"])])
    "Cache.store" (by decide)
  exact ⟨by decide, h.1, h.2.2⟩

/-!
## Helper lemmas for the web-side wrapper
-/

/-- A counting stub standing in for `raw_fetch`: returns fixed content
and bumps its invocation counter. -/
def countingStub (content : String) : String → Nat → Except PyErr String × Nat :=
  fun _ n => (Except.ok content, n + 1)

theorem lookupLive_eq_none (st : WebState) (k : String) (now : Nat)
    (hf : findEntry st.entries k = none) : st.lookupLive k now = none := by
  unfold WebState.lookupLive
  rw [hf]

theorem lookupLive_eq_noexp (st : WebState) (k : String) (now : Nat) (v : RVal)
    (hf : findEntry st.entries k = some (v, none)) :
    st.lookupLive k now = some (v, none) := by
  unfold WebState.lookupLive
  rw [hf]

theorem lookupLive_eq_exp (st : WebState) (k : String) (now : Nat) (v : RVal)
    (t : Nat) (hf : findEntry st.entries k = some (v, some t)) :
    st.lookupLive k now = if now < t then some (v, some t) else none := by
  unfold WebState.lookupLive
  rw [hf]

theorem counterInt_eq (st : WebState) (u : String) (t : Nat) :
    st.counterInt u t
      = match st.lookupLive ("count:" ++ u) t with
        | some (v, _) => (v.asInt?).getD 0
        | none => 0 := rfl

theorem lookupLive_some_expiry {st : WebState} {k : String} {now t : Nat}
    {v : RVal} (h : st.lookupLive k now = some (v, some t)) : now < t := by
  cases hf : findEntry st.entries k with
  | none =>
    rw [lookupLive_eq_none st k now hf] at h
    cases h
  | some p =>
    rcases p with ⟨v0, e0⟩
    cases e0 with
    | none =>
      rw [lookupLive_eq_noexp st k now v0 hf] at h
      simp at h
    | some t0 =>
      rw [lookupLive_eq_exp st k now v0 t0 hf] at h
      by_cases hlt : now < t0
      · rw [if_pos hlt] at h
        simp only [Option.some_inj, Prod.mk.injEq, Option.some_inj] at h
        obtain ⟨hv, ht⟩ := h
        omega
      · rw [if_neg hlt] at h
        cases h

/-- The state a wrapper call leaves behind is the incremented state,
possibly with one `SETEX` on the bare url on top. -/
theorem cacheWrapper_state {σ : Type} (func : String → σ → Except PyErr String × σ)
    (ttl : Nat) (url : String) (now : Nat) (r : WebState) (s : σ) :
    (cacheWrapper func ttl url now r s).2.1 = r.incr ("count:" ++ url) now
    ∨ ∃ c, (cacheWrapper func ttl url now r s).2.1
        = (r.incr ("count:" ++ url) now).setex url ttl c now := by
  unfold cacheWrapper
  by_cases h : (((r.incr ("count:" ++ url) now).getAt url now).getD "" ≠ "")
  · rw [if_pos h]
    left
    rfl
  · rw [if_neg h]
    cases hf : func url s with
    | mk res s2 =>
      cases res with
      | ok c =>
        right
        exact ⟨c, rfl⟩
      | error e =>
        left
        rfl

theorem wrapper_findEntry_count {σ : Type} (func : String → σ → Except PyErr String × σ)
    (ttl : Nat) (url : String) (now : Nat) (r : WebState) (s : σ)
    (u : String) (hu : "count:" ++ u ≠ url) :
    findEntry ((cacheWrapper func ttl url now r s).2.1).entries ("count:" ++ u)
      = findEntry ((r.incr ("count:" ++ url) now)).entries ("count:" ++ u) := by
  rcases cacheWrapper_state func ttl url now r s with h | ⟨c, h⟩
  · rw [h]
  · rw [h, findEntry_setex_ne _ _ _ _ _ _ (Ne.symm hu)]

theorem counterInt_congr {r r' : WebState} {u : String}
    (h : findEntry r'.entries ("count:" ++ u) = findEntry r.entries ("count:" ++ u))
    (t : Nat) : r'.counterInt u t = r.counterInt u t := by
  rw [counterInt_eq, counterInt_eq, lookupLive_of_findEntry_eq h]

theorem counterInt_incr_self (r : WebState) (url : String) (now : Nat)
    (hok : r.incrOk ("count:" ++ url) now = true) :
    (r.incr ("count:" ++ url) now).counterInt url now = r.counterInt url now + 1 := by
  cases hl : r.lookupLive ("count:" ++ url) now with
  | none =>
    have hst : r.incr ("count:" ++ url) now
        = ⟨("count:" ++ url, RVal.n 1, none) :: r.entries⟩ := by
      unfold WebState.incr
      rw [hl]
    have hl2 : (r.incr ("count:" ++ url) now).lookupLive ("count:" ++ url) now
        = some (RVal.n 1, none) := by
      rw [hst]
      exact lookupLive_eq_noexp _ _ _ _ (findEntry_cons_self _ _ _ _)
    rw [counterInt_eq, counterInt_eq, hl, hl2]
    rfl
  | some p =>
    rcases p with ⟨v, e⟩
    have hi : ∃ i, v.asInt? = some i := by
      unfold WebState.incrOk at hok
      rw [hl] at hok
      exact Option.isSome_iff_exists.mp hok
    obtain ⟨i, hi⟩ := hi
    have hst : r.incr ("count:" ++ url) now
        = ⟨("count:" ++ url, RVal.n (i + 1), e) :: r.entries⟩ := by
      unfold WebState.incr
      rw [hl]
      dsimp only
      rw [hi]
    have hcr : r.counterInt url now = i := by
      rw [counterInt_eq, hl]
      show (v.asInt?).getD 0 = i
      rw [hi]
      rfl
    cases e with
    | none =>
      have hl2 : (r.incr ("count:" ++ url) now).lookupLive ("count:" ++ url) now
          = some (RVal.n (i + 1), none) := by
        rw [hst]
        exact lookupLive_eq_noexp _ _ _ _ (findEntry_cons_self _ _ _ _)
      rw [counterInt_eq, hl2, hcr]
      rfl
    | some t =>
      have hlt : now < t := lookupLive_some_expiry hl
      have hl2 : (r.incr ("count:" ++ url) now).lookupLive ("count:" ++ url) now
          = some (RVal.n (i + 1), some t) := by
        rw [hst, lookupLive_eq_exp _ _ _ _ _ (findEntry_cons_self _ _ _ _), if_pos hlt]
      rw [counterInt_eq, hl2, hcr]
      rfl

theorem incr_count_noTTL (r : WebState) (url : String) (now : Nat)
    (hok : r.incrOk ("count:" ++ url) now = true)
    (h : r.countNoTTL url = true) :
    findEntry ((r.incr ("count:" ++ url) now)).entries ("count:" ++ url)
      = some (RVal.n (r.counterInt url now + 1), none) := by
  unfold WebState.countNoTTL at h
  cases hf : findEntry r.entries ("count:" ++ url) with
  | none =>
    have hl : r.lookupLive ("count:" ++ url) now = none :=
      lookupLive_eq_none _ _ _ hf
    have hst : r.incr ("count:" ++ url) now
        = ⟨("count:" ++ url, RVal.n 1, none) :: r.entries⟩ := by
      unfold WebState.incr
      rw [hl]
    have hc : r.counterInt url now = 0 := by
      rw [counterInt_eq, hl]
    rw [hst, findEntry_cons_self, hc]
    norm_num
  | some p =>
    rcases p with ⟨v, e⟩
    cases e with
    | some t0 =>
      rw [hf] at h
      simp at h
    | none =>
      have hl : r.lookupLive ("count:" ++ url) now = some (v, none) :=
        lookupLive_eq_noexp _ _ _ _ hf
      have hi : ∃ i, v.asInt? = some i := by
        unfold WebState.incrOk at hok
        rw [hl] at hok
        exact Option.isSome_iff_exists.mp hok
      obtain ⟨i, hi⟩ := hi
      have hst : r.incr ("count:" ++ url) now
          = ⟨("count:" ++ url, RVal.n (i + 1), none) :: r.entries⟩ := by
        unfold WebState.incr
        rw [hl]
        dsimp only
        rw [hi]
      have hc : r.counterInt url now = i := by
        rw [counterInt_eq, hl]
        show (v.asInt?).getD 0 = i
        rw [hi]
        rfl
      rw [hst, findEntry_cons_self, hc]

/-!
## C5: second fetch within the ttl is a cache hit
-/

theorem C5_first_call (url content : String) (ttl t1 : Nat) :
    cacheWrapper (countingStub content) ttl url t1 emptyWeb 0
      = (Except.ok content,
         ⟨[(url, RVal.s content, some (t1 + ttl)), ("count:" ++ url, RVal.n 1, none)]⟩, 1) := by
  have hi : emptyWeb.incr ("count:" ++ url) t1
      = ⟨[("count:" ++ url, RVal.n 1, none)]⟩ := by
    unfold WebState.incr
    rw [lookupLive_eq_none emptyWeb ("count:" ++ url) t1 rfl]
    rfl
  have hg : (emptyWeb.incr ("count:" ++ url) t1).getAt url t1 = none := by
    rw [hi]
    unfold WebState.getAt
    have hf : findEntry [("count:" ++ url, RVal.n 1, none)] url = none := by
      rw [findEntry_cons_ne _ _ _ _ _ (count_key_ne url)]
      rfl
    rw [lookupLive_eq_none _ _ _ hf]
    rfl
  unfold cacheWrapper
  rw [hg, hi]
  simp [countingStub, WebState.setex]

theorem C5_second_call (url content : String) (ttl t1 t2 : Nat)
    (hc : content ≠ "") (h12 : t2 < t1 + ttl) :
    cacheWrapper (countingStub content) ttl url t2
      ⟨[(url, RVal.s content, some (t1 + ttl)), ("count:" ++ url, RVal.n 1, none)]⟩ 1
      = (Except.ok content,
         ⟨[("count:" ++ url, RVal.n 2, none), (url, RVal.s content, some (t1 + ttl)),
           ("count:" ++ url, RVal.n 1, none)]⟩, 1) := by
  have hfA : findEntry [(url, RVal.s content, some (t1 + ttl)),
      ("count:" ++ url, RVal.n 1, none)] ("count:" ++ url) = some (RVal.n 1, none) := by
    rw [findEntry_cons_ne _ _ _ _ _ (Ne.symm (count_key_ne url)), findEntry_cons_self]
  have hlA : (⟨[(url, RVal.s content, some (t1 + ttl)),
      ("count:" ++ url, RVal.n 1, none)]⟩ : WebState).lookupLive ("count:" ++ url) t2
      = some (RVal.n 1, none) :=
    lookupLive_eq_noexp _ _ _ _ hfA
  have hi : (⟨[(url, RVal.s content, some (t1 + ttl)),
      ("count:" ++ url, RVal.n 1, none)]⟩ : WebState).incr ("count:" ++ url) t2
      = ⟨[("count:" ++ url, RVal.n 2, none), (url, RVal.s content, some (t1 + ttl)),
         ("count:" ++ url, RVal.n 1, none)]⟩ := by
    unfold WebState.incr
    rw [hlA]
    rfl
  have hfB : findEntry [("count:" ++ url, RVal.n 2, none),
      (url, RVal.s content, some (t1 + ttl)), ("count:" ++ url, RVal.n 1, none)] url
      = some (RVal.s content, some (t1 + ttl)) := by
    rw [findEntry_cons_ne _ _ _ _ _ (count_key_ne url), findEntry_cons_self]
  have hg : ((⟨[(url, RVal.s content, some (t1 + ttl)),
      ("count:" ++ url, RVal.n 1, none)]⟩ : WebState).incr ("count:" ++ url) t2).getAt url t2
      = some content := by
    rw [hi]
    unfold WebState.getAt
    rw [lookupLive_eq_exp _ _ _ _ _ hfB, if_pos h12]
    rfl
  unfold cacheWrapper
  rw [hg, hi]
  simp [hc]

/-- C5: two `fetch` calls on the same url within the ttl, from the empty
store, with the underlying fetch replaced by a counting stub returning a
non-empty page: the stub runs exactly once, the access counter of the
url reads 2 after the second call, and the second call returns the
cached content. -/
theorem C5_cache_hit (url content : String) (ttl t1 t2 : Nat)
    (hc : content ≠ "") (h12 : t2 < t1 + ttl) :
    (cacheWrapper (countingStub content) ttl url t2
        (cacheWrapper (countingStub content) ttl url t1 emptyWeb 0).2.1
        (cacheWrapper (countingStub content) ttl url t1 emptyWeb 0).2.2).2.2 = 1
    ∧ (cacheWrapper (countingStub content) ttl url t2
        (cacheWrapper (countingStub content) ttl url t1 emptyWeb 0).2.1
        (cacheWrapper (countingStub content) ttl url t1 emptyWeb 0).2.2).2.1.counterInt
          url t2 = 2
    ∧ (cacheWrapper (countingStub content) ttl url t2
        (cacheWrapper (countingStub content) ttl url t1 emptyWeb 0).2.1
        (cacheWrapper (countingStub content) ttl url t1 emptyWeb 0).2.2).1
      = Except.ok content := by
  rw [C5_first_call url content ttl t1]
  dsimp only
  rw [C5_second_call url content ttl t1 t2 hc h12]
  dsimp only
  refine ⟨rfl, ?_, rfl⟩
  rw [counterInt_eq, lookupLive_eq_noexp _ _ _ _ (findEntry_cons_self _ _ _ _)]
  rfl

/-- C5 witness: url `"u"`, content `"hi"`, ttl 10, calls at times 0 and
5. -/
theorem C5_cache_hit_witness :
    (cacheWrapper (countingStub "hi") 10 "u" 5
        (cacheWrapper (countingStub "hi") 10 "u" 0 emptyWeb 0).2.1
        (cacheWrapper (countingStub "hi") 10 "u" 0 emptyWeb 0).2.2).2.2 = 1
    ∧ (cacheWrapper (countingStub "hi") 10 "u" 5
        (cacheWrapper (countingStub "hi") 10 "u" 0 emptyWeb 0).2.1
        (cacheWrapper (countingStub "hi") 10 "u" 0 emptyWeb 0).2.2).2.1.counterInt "u" 5 = 2
    ∧ (cacheWrapper (countingStub "hi") 10 "u" 5
        (cacheWrapper (countingStub "hi") 10 "u" 0 emptyWeb 0).2.1
        (cacheWrapper (countingStub "hi") 10 "u" 0 emptyWeb 0).2.2).1
      = Except.ok "hi" :=
  C5_cache_hit "u" "hi" 10 0 5 (by decide) (by decide)

/-!
## C10: an empty cached page is treated as a miss
-/

/-- C10: when the cached entry for a url holds the empty string and has
not expired, the wrapper still takes the miss path (the hit test is
truthiness of the cached bytes, not presence): the underlying fetch runs
again (the counting stub's counter advances), its result is returned and
re-stored under the url with a fresh ttl. -/
theorem C10_empty_page_miss (url content : String) (ttl now : Nat)
    (r : WebState) (s : Nat) (e : Option Nat) (httl : 0 < ttl)
    (hcache : r.lookupLive url now = some (RVal.s "", e)) :
    (cacheWrapper (countingStub content) ttl url now r s).2.2 = s + 1
    ∧ (cacheWrapper (countingStub content) ttl url now r s).1 = Except.ok content
    ∧ (cacheWrapper (countingStub content) ttl url now r s).2.1.lookupLive url now
        = some (RVal.s content, some (now + ttl)) := by
  have hg : (r.incr ("count:" ++ url) now).getAt url now = some "" := by
    unfold WebState.getAt
    rw [lookupLive_of_findEntry_eq
      (findEntry_incr_ne r ("count:" ++ url) url now (count_key_ne url)) now, hcache]
    rfl
  have hmiss : cacheWrapper (countingStub content) ttl url now r s
      = (Except.ok content,
         (r.incr ("count:" ++ url) now).setex url ttl content now, s + 1) := by
    unfold cacheWrapper
    rw [hg]
    simp [countingStub]
  rw [hmiss]
  refine ⟨rfl, rfl, ?_⟩
  have hf : findEntry ((r.incr ("count:" ++ url) now).setex url ttl content now).entries url
      = some (RVal.s content, some (now + ttl)) := by
    unfold WebState.setex
    exact findEntry_cons_self _ _ _ _
  rw [lookupLive_eq_exp _ _ _ _ _ hf, if_pos (by omega)]

/-- C10 witness: url `"u"` cached as the empty string with expiry 5,
fetched at time 0 with a stub returning `""`: the stub runs and the
empty page is re-stored with expiry 10. -/
theorem C10_empty_page_miss_witness :
    (WebState.mk [("u", RVal.s "", some 5)]).lookupLive "u" 0 = some (RVal.s "", some 5)
    ∧ (cacheWrapper (countingStub "") 10 "u" 0
        (WebState.mk [("u", RVal.s "", some 5)]) 0).2.2 = 0 + 1
    ∧ (cacheWrapper (countingStub "") 10 "u" 0
        (WebState.mk [("u", RVal.s "", some 5)]) 0).1 = Except.ok ""
    ∧ (cacheWrapper (countingStub "") 10 "u" 0
        (WebState.mk [("u", RVal.s "", some 5)]) 0).2.1.lookupLive "u" 0
      = some (RVal.s "", some (0 + 10)) := by
  have h := C10_empty_page_miss "u" "" 10 0 (WebState.mk [("u", RVal.s "", some 5)]) 0
    (some 5) (by decide) (by decide)
  exact ⟨by decide, h.1, h.2.1, h.2.2⟩

/-!
## C6: the access counter under a fetch call
-/

/-- C6 counterexample: the system shares one keyspace between page
entries and counters, so the claim "the counter is monotonically
non-decreasing: no operation of the system ever resets or decreases it,
including expiration of the cached page content" fails.  Fetch the
literal url `"count:x"` with page content `"7"` (the text is stored
under the key `count:x` with a ttl), then fetch `"x"`: its
`INCR count:x` finds the decimal text `"7"`, genuinely succeeds — no
raise, as the first conjunct records — and bumps the entry in place to
`8`, inheriting the page's ttl.  The access counter of `"x"` then reads
8 at time 0 but 0 at time 10: it expired away with the page entry
occupying its key.  (The trace's other `INCR`s act on absent keys and
succeed trivially, so the whole trace is raise-free in the real
program.) -/
theorem C6_counter_cex :
    ((cacheWrapper (countingStub "7") 10 "count:x" 0 emptyWeb 0).2.1.incrOk "count:x" 0
      = true)
    ∧ ((cacheWrapper (countingStub "7") 10 "x" 0
        (cacheWrapper (countingStub "7") 10 "count:x" 0 emptyWeb 0).2.1 0).2.1.counterInt
          "x" 0 = 8)
    ∧ ((cacheWrapper (countingStub "7") 10 "x" 0
        (cacheWrapper (countingStub "7") 10 "count:x" 0 emptyWeb 0).2.1 0).2.1.counterInt
          "x" 10 = 0) := by
  decide

/-- C6 amended: for every fetch call whose `INCR` succeeds — the counter
key of the fetched url is absent or holds an integer, which is true of
every state the system itself creates and is exactly the condition under
which the real `INCR` returns instead of raising — (a) the access
counter of the fetched url is incremented exactly once, regardless of
hit, miss or fetch failure; (b) the counter of any other url `u` whose
counter key is not itself the fetched url string is unchanged (in
particular never decreased); (c) a counter key carrying no ttl — which
is how the system creates counters — still carries none afterwards, and
then reads as the old value plus one at every time, so page expiration
does not touch it.  The provisos are forced by the single shared
keyspace: fetching a url literally named `count:<u>` overwrites `u`'s
counter with page content and a ttl (see the counterexample). -/
theorem C6_counter_increment {σ : Type} (func : String → σ → Except PyErr String × σ)
    (ttl : Nat) (url : String) (now : Nat) (r : WebState) (s : σ)
    (hok : r.incrOk ("count:" ++ url) now = true) :
    (cacheWrapper func ttl url now r s).2.1.counterInt url now
      = r.counterInt url now + 1
    ∧ (∀ u t, "count:" ++ u ≠ url → u ≠ url →
        (cacheWrapper func ttl url now r s).2.1.counterInt u t = r.counterInt u t)
    ∧ (r.countNoTTL url = true →
        (cacheWrapper func ttl url now r s).2.1.countNoTTL url = true
        ∧ ∀ t, (cacheWrapper func ttl url now r s).2.1.counterInt url t
            = r.counterInt url now + 1) := by
  refine ⟨?_, ?_, ?_⟩
  · rw [counterInt_congr
      (wrapper_findEntry_count func ttl url now r s url (count_key_ne url)) now]
    exact counterInt_incr_self r url now hok
  · intro u t hu hu2
    have h1 := wrapper_findEntry_count func ttl url now r s u hu
    have h2 : findEntry ((r.incr ("count:" ++ url) now)).entries ("count:" ++ u)
        = findEntry r.entries ("count:" ++ u) := by
      refine findEntry_incr_ne r _ _ now ?_
      intro hk
      exact hu2 (count_key_inj hk.symm)
    exact counterInt_congr (h1.trans h2) t
  · intro hno
    have hfe := incr_count_noTTL r url now hok hno
    have hfw : findEntry ((cacheWrapper func ttl url now r s).2.1).entries ("count:" ++ url)
        = some (RVal.n (r.counterInt url now + 1), none) :=
      (wrapper_findEntry_count func ttl url now r s url (count_key_ne url)).trans hfe
    constructor
    · unfold WebState.countNoTTL
      rw [hfw]
    · intro t
      rw [counterInt_eq, lookupLive_eq_noexp _ _ _ _ hfw]
      rfl

/-- C6 witness: a concrete fetch of url `"u"` from the empty store at
time 0 with ttl 10 (the empty store satisfies the `incrOk` hypothesis):
the counter of `"u"` goes from 0 to 1, the counter of the unrelated url
`"v"` stays 0, and the no-ttl clause applies at time 99. -/
theorem C6_counter_increment_witness :
    (cacheWrapper (countingStub "hi") 10 "u" 0 emptyWeb 0).2.1.counterInt "u" 0
      = emptyWeb.counterInt "u" 0 + 1
    ∧ (cacheWrapper (countingStub "hi") 10 "u" 0 emptyWeb 0).2.1.counterInt "v" 3
      = emptyWeb.counterInt "v" 3
    ∧ (cacheWrapper (countingStub "hi") 10 "u" 0 emptyWeb 0).2.1.countNoTTL "u" = true
    ∧ (cacheWrapper (countingStub "hi") 10 "u" 0 emptyWeb 0).2.1.counterInt "u" 99
      = emptyWeb.counterInt "u" 0 + 1 := by
  have h := C6_counter_increment (countingStub "hi") 10 "u" 0 emptyWeb 0 (by decide)
  have h3 := h.2.2 (by decide)
  exact ⟨h.1, h.2.1 "v" 3 (by decide) (by decide), h3.1, h3.2 99⟩

/-!
## C7: the key naming convention
-/

/-- C7: the keys each operation touches follow the naming convention
exactly.  A wrapped `store` call returns its freshly generated key
(modelled as the injected `uuid4` string), stores the data under exactly
that string key and no other, and appends to exactly the two list keys
`Cache.store:inputs` and `Cache.store:outputs` (the operation identity
being the qualified name); every other key is untouched.  A fetch-cache
call touches only the counter key `count:<url>` and the bare `<url>`. -/
theorem C7_key_naming :
    (∀ (key : String) (st : RedisState) (data : PyVal),
      (Cache.store key st data).1 = Except.ok key
      ∧ (Cache.store key st data).2.getStr key = some data.toBytes
      ∧ (∀ k, k ≠ key → (Cache.store key st data).2.getStr k = st.getStr k)
      ∧ (Cache.store key st data).2.lrange "Cache.store:inputs"
          = st.lrange "Cache.store:inputs" ++ [pyStrArgs data]
      ∧ (Cache.store key st data).2.lrange "Cache.store:outputs"
          = st.lrange "Cache.store:outputs" ++ [key]
      ∧ (∀ k, k ≠ "Cache.store:inputs" → k ≠ "Cache.store:outputs" →
          (Cache.store key st data).2.lrange k = st.lrange k))
    ∧ (∀ (σ : Type) (func : String → σ → Except PyErr String × σ)
        (ttl : Nat) (url : String) (now : Nat) (r : WebState) (s : σ) (k : String),
        k ≠ "count:" ++ url → k ≠ url →
        findEntry ((cacheWrapper func ttl url now r s).2.1).entries k
          = findEntry r.entries k) := by
  constructor
  · intro key st data
    exact ⟨store_fst key st data, getStr_store_self key st data,
      fun k hk => getStr_store_ne key st data k hk,
      lrange_store_inputs key st data, lrange_store_outputs key st data,
      fun k h1 h2 => lrange_store_ne key st data k h1 h2⟩
  · intro σ func ttl url now r s k hk1 hk2
    have h2 : findEntry ((r.incr ("count:" ++ url) now)).entries k
        = findEntry r.entries k :=
      findEntry_incr_ne r _ _ now (Ne.symm hk1)
    rcases cacheWrapper_state func ttl url now r s with h | ⟨c, h⟩
    · rw [h, h2]
    · rw [h, findEntry_setex_ne _ _ _ _ _ _ (Ne.symm hk2), h2]

/-- C7 witness: a concrete `store` with generated key `"k1"` and a
concrete fetch of `"u"`, checking the named keys and an unrelated key
`"zz"`. -/
theorem C7_key_naming_witness :
    (Cache.store "k1" emptyRedis (PyVal.str "cat")).1 = Except.ok "k1"
    ∧ (Cache.store "k1" emptyRedis (PyVal.str "cat")).2.getStr "k1"
      = some (PyVal.str "cat").toBytes
    ∧ (Cache.store "k1" emptyRedis (PyVal.str "cat")).2.getStr "zz" = emptyRedis.getStr "zz"
    ∧ (Cache.store "k1" emptyRedis (PyVal.str "cat")).2.lrange "Cache.store:inputs"
      = emptyRedis.lrange "Cache.store:inputs" ++ [pyStrArgs (PyVal.str "cat")]
    ∧ (Cache.store "k1" emptyRedis (PyVal.str "cat")).2.lrange "Cache.store:outputs"
      = emptyRedis.lrange "Cache.store:outputs" ++ ["k1"]
    ∧ (Cache.store "k1" emptyRedis (PyVal.str "cat")).2.lrange "zz" = emptyRedis.lrange "zz"
    ∧ findEntry ((cacheWrapper (countingStub "hi") 10 "u" 0 emptyWeb 0).2.1).entries "zz"
      = findEntry emptyWeb.entries "zz" := by
  obtain ⟨hs, hw⟩ := C7_key_naming
  obtain ⟨h1, h2, h3, h4, h5, h6⟩ := hs "k1" emptyRedis (PyVal.str "cat")
  exact ⟨h1, h2, h3 "zz" (by decide), h4, h5, h6 "zz" (by decide) (by decide),
    hw Nat (countingStub "hi") 10 "u" 0 emptyWeb 0 "zz" (by decide) (by decide)⟩
